import Mathlib

/-!
Verification of the swagger-rustgen v2 code-generation pipeline against its
specification.  The Rust sources are shallowly embedded below: pure functions
become Lean functions, the emission pass becomes explicit state passing, and
the generally recursive reference resolver takes an explicit fuel argument
(running out of fuel models non-terminating recursion).  Rust `HashMap`s are
modelled as association lists looked up by first match; one insertion of a
list of pairs in front of the old list models `HashMap::extend`, whose later
entries override earlier ones (source maps have unique keys).  Rust strings
are Lean strings, with byte-wise ASCII operations modelled on the character
list (`String.data`); Rust and Lean string comparison agree on ASCII.
-/

namespace SwaggerRustgen

/-! ## String helpers (Rust `str` methods used by the sources) -/

/-- Rust `str::starts_with` for a string pattern. -/
def rustStartsWith (s pat : String) : Bool :=
  pat.data.isPrefixOf s.data

/-- Rust `str::ends_with` for a string pattern. -/
def rustEndsWith (s pat : String) : Bool :=
  pat.data.isSuffixOf s.data

/-- Repeatedly strip a leading occurrence of `pat`; the natural-number
argument bounds the number of rounds (it is called with more rounds than the
string has characters, so the bound is never the reason it stops). -/
def stripPrefixAux (pat : List Char) : Nat → List Char → List Char
  | 0, s => s
  | Nat.succ n, s =>
    if !pat.isEmpty && pat.isPrefixOf s then stripPrefixAux pat n (s.drop pat.length)
    else s

/-- Rust `str::trim_start_matches`: removes every leading repetition of `pat`. -/
def trimStartMatches (s pat : String) : String :=
  String.mk (stripPrefixAux pat.data (s.data.length + 1) s.data)

/-- Rust `str::to_lowercase` (the sources only feed it ASCII format names). -/
def rustToLowercase (s : String) : String :=
  String.mk (s.data.map Char.toLower)

/-- Rust `str::replace` for a single-character pattern replaced by a
single-character string, as used by `format_var_name`. -/
def rustReplaceChar (s : String) (pat sub : Char) : String :=
  String.mk (s.data.map (fun c => if c = pat then sub else c))

/-- Lexicographic no-greater-than on character lists, mirroring the byte-wise
`Ord` of Rust strings (the sources compare only ASCII names, where character
order and byte order agree). -/
def charListLe : List Char → List Char → Bool
  | [], _ => true
  | _ :: _, [] => false
  | a :: as, b :: bs =>
    if a < b then true
    else if a = b then charListLe as bs
    else false

/-- Rust `str` comparison (`a.cmp(b) != Greater`), byte-wise. -/
def strLe (a b : String) : Bool :=
  charListLe a.data b.data

/-! ## The convert_case crate

The naming helpers of `src/name.rs` call `str::to_case` from the external
convert_case crate.  The two conversions used (`Case::UpperCamel` and
`Case::Snake`) are modelled here from that crate: the input is split into
words at the default boundaries (underscore, hyphen and space delimiters; a
lowercase-to-uppercase change; a letter-to-digit or digit-to-letter change;
and an acronym end, an uppercase letter followed by an uppercase letter that
is itself followed by a lowercase one), then each word is capitalised and the
words concatenated (UpperCamel), or each word is lowercased and the words
joined with underscores (Snake). -/

/-- Word-boundary delimiters of convert_case default boundaries. -/
def isCaseDelim (c : Char) : Bool :=
  c = '_' || c = '-' || c = ' '

/-- Whether a word boundary falls between `prev` and `c`, where `rest` is the
input after `c` (needed for the acronym boundary). -/
def caseBoundary (prev c : Char) (rest : List Char) : Bool :=
  (prev.isLower && c.isUpper)
  || (prev.isUpper && c.isUpper && (match rest with
      | next :: _ => next.isLower
      | [] => false))
  || ((prev.isLower || prev.isUpper) && c.isDigit)
  || (prev.isDigit && (c.isLower || c.isUpper))

/-- Split into words at the convert_case default boundaries; `cur` is the
current word accumulated in reverse. -/
def splitWordsAux (cur : List Char) : List Char → List (List Char)
  | [] => if cur.isEmpty then [] else [cur.reverse]
  | c :: rest =>
    if isCaseDelim c then
      (if cur.isEmpty then [] else [cur.reverse]) ++ splitWordsAux [] rest
    else
      match cur with
      | [] => splitWordsAux [c] rest
      | p :: _ =>
        if caseBoundary p c rest then cur.reverse :: splitWordsAux [c] rest
        else splitWordsAux (c :: cur) rest

/-- Capitalise one word: first character uppercased, the rest lowercased. -/
def capitalizeWord : List Char → List Char
  | [] => []
  | c :: cs => Char.toUpper c :: cs.map Char.toLower

/-- Modelled from the external convert_case crate: `to_case(Case::UpperCamel)`. -/
def toCaseUpperCamel (s : String) : String :=
  String.mk (((splitWordsAux [] s.data).map capitalizeWord).flatten)

/-- Modelled from the external convert_case crate: `to_case(Case::Snake)`. -/
def toCaseSnake (s : String) : String :=
  String.mk (List.intercalate ['_'] ((splitWordsAux [] s.data).map (List.map Char.toLower)))

/-! ## src/name.rs -/

/-- The reserved-word table of `src/name.rs`. -/
def RUST_KEYWORDS : List String :=
  ["as", "break", "const", "continue", "crate", "else", "enum", "extern", "false", "fn", "for",
   "if", "impl", "in", "let", "loop", "match", "mod", "move", "mut", "pub", "ref", "return",
   "self", "Self", "static", "struct", "super", "trait", "true", "type", "unsafe", "use", "where",
   "while"]

/-- Rust `is_keyword` of `src/name.rs`. -/
def is_keyword (word : String) : Bool :=
  RUST_KEYWORDS.contains word

/-- Rust `fix_name_if_keyword` of `src/name.rs` (functional form of the
in-place push of an underscore). -/
def fix_name_if_keyword (name : String) : String :=
  if is_keyword name then name ++ "_" else name

/-- Rust `format_type_name` of `src/name.rs`. -/
def format_type_name (name : String) : String :=
  fix_name_if_keyword (toCaseUpperCamel name)

/-- Rust `format_var_name` of `src/name.rs`. -/
def format_var_name (name : String) : String :=
  fix_name_if_keyword (toCaseSnake (rustReplaceChar (rustReplaceChar name '-' '_') '.' '_'))

/-! ## The schema data model (src/v2/schema.rs, src/v2/items.rs)

The v2 pipeline (prototyper, type resolver, backend) treats `required`,
`enum` and `allOf` as plain vectors (absent deserialises to empty), and an
`Item` in object position carries a full schema; the`Schema` below is the
shape those callers compile against.  A `serde_yaml::Value` is modelled only
as far as the pipeline reads it: a string or anything else. -/

/-- Enum literal values (`serde_yaml::Value` as read through `as_str`). -/
inductive YamlValue where
  | str (s : String)
  | other
deriving DecidableEq

/-- Rust `Value::as_str`. -/
def YamlValue.as_str : YamlValue → Option String
  | .str s => some s
  | .other => none

/-- Rust `Item`, parametrised by the schema type to tie the recursive knot. -/
inductive ItemF (S : Type) where
  | reference (ref : String)
  | object (schema : S)

/-- Field record of a schema node, parametrised by the schema type. -/
structure SchemaF (S : Type) where
  ref_ : Option String
  format : Option String
  title : Option String
  description : Option String
  required : List String
  type_ : Option String
  items : Option (ItemF S)
  properties : Option (List (String × ItemF S))
  additional_properties : Option (ItemF S)
  enum_ : List YamlValue
  all_of : List S
  x_go_name : Option String
  x_go_package : Option String

/-- Rust `Schema` of src/v2/schema.rs. -/
inductive Schema where
  | mk (fields : SchemaF Schema)

/-- Rust `Item` of src/v2/items.rs. -/
abbrev Item := ItemF Schema

/-- Property maps (`Items(HashMap<String, Item>)`), as an association list. -/
abbrev Items := List (String × Item)

def Schema.unwrap : Schema → SchemaF Schema
  | .mk f => f

def Schema.ref_ (s : Schema) : Option String := s.unwrap.ref_

def Schema.format (s : Schema) : Option String := s.unwrap.format

def Schema.title (s : Schema) : Option String := s.unwrap.title

def Schema.description (s : Schema) : Option String := s.unwrap.description

def Schema.required (s : Schema) : List String := s.unwrap.required

def Schema.type_ (s : Schema) : Option String := s.unwrap.type_

def Schema.items (s : Schema) : Option Item := s.unwrap.items

def Schema.properties (s : Schema) : Option Items := s.unwrap.properties

def Schema.additional_properties (s : Schema) : Option Item := s.unwrap.additional_properties

def Schema.enum_ (s : Schema) : List YamlValue := s.unwrap.enum_

def Schema.all_of (s : Schema) : List Schema := s.unwrap.all_of

def Schema.x_go_name (s : Schema) : Option String := s.unwrap.x_go_name

def Schema.x_go_package (s : Schema) : Option String := s.unwrap.x_go_package

/-- Rust `Schema::default()`: every field absent or empty. -/
def Schema.default : Schema :=
  .mk { ref_ := none, format := none, title := none, description := none, required := [],
        type_ := none, items := none, properties := none, additional_properties := none,
        enum_ := [], all_of := [], x_go_name := none, x_go_package := none }

/-- Functional form of the field assignment `schema.description = d`. -/
def Schema.withDescription (s : Schema) (d : Option String) : Schema :=
  .mk { s.unwrap with description := d }

/-- Rust `Schema::is_of_type`. -/
def Schema.is_of_type (s : Schema) (t : String) : Bool :=
  s.type_ == some t

/-- Rust `Schema::is_object`. -/
def Schema.is_object (s : Schema) : Bool :=
  s.is_of_type "object"

/-- Rust `Schema::is_array`. -/
def Schema.is_array (s : Schema) : Bool :=
  s.is_of_type "array"

/-- Rust `Schema::name`: the vendor naming hint, else the declared title. -/
def Schema.name (s : Schema) : Option String :=
  match s.x_go_name with
  | some title => some title
  | none =>
    match s.title with
    | some title => some title
    | none => none

/-- Modelled from the spec: `Schema::is_enum` is called by the prototyper
(section 4.3, an inline string enumeration registers as a named prototype)
but its definition is not among the repository files; a schema is an
enumeration when it declares enum literals. -/
def Schema.is_enum (s : Schema) : Bool :=
  !s.enum_.isEmpty

/-- Modelled from the spec: `Schema::is_string_enum` is called by the Rust
backend (section 4.6, a closed string enumeration with one case per literal)
but its definition is not among the repository files; a schema is a string
enumeration when it declares enum literals and every literal is a string. -/
def Schema.is_string_enum (s : Schema) : Bool :=
  !s.enum_.isEmpty && s.enum_.all (fun v => v.as_str.isSome)

/-- Modelled from the spec: `Item::is_reference` distinguishes the
Reference-kind from the Object-kind prototypes (section 4.5); its definition
is not among the repository files. -/
def ItemF.is_reference : Item → Bool
  | .reference _ => true
  | .object _ => false

/-! ## Responses, definitions, paths (src/v2/responses.rs and friends) -/

/-- Rust `ResponseObject`. -/
structure ResponseObject where
  description : Option String
  schema : Option Schema

/-- Rust `Response`. -/
inductive Response where
  | reference (ref : String)
  | object (response : ResponseObject)

/-- Rust `Responses(HashMap<String, Response>)`, as an association list. -/
abbrev Responses := List (String × Response)

/-- Rust `Definitions(HashMap<String, Schema>)`, as an association list. -/
abbrev Definitions := List (String × Schema)

/-- Rust `PathParameter` (also `QueryParameter`). -/
structure PathParameter where
  name : String
  description : Option String
  type_ : String
  required : Bool
  items : Option Item

/-- Rust `BodyParameter`. -/
structure BodyParameter where
  name : String
  description : Option String
  required : Bool
  schema : Schema

/-- Rust `Parameter`. -/
inductive Parameter where
  | path (param : PathParameter)
  | query (param : PathParameter)
  | body (param : BodyParameter)

/-- Rust `Operation`. -/
structure Operation where
  tags : List String
  summary : Option String
  description : Option String
  operation_id : Option String
  consumes : List String
  produces : List String
  responses : Responses
  depracated : Bool
  parameters : List Parameter

/-- Rust `PathItemObject`. -/
structure PathItemObject where
  ref_ : Option String
  get : Option Operation
  put : Option Operation
  post : Option Operation
  delete : Option Operation
  options : Option Operation
  head : Option Operation
  patch : Option Operation

/-- Rust `Path`. -/
inductive Path where
  | item (path : PathItemObject)
  | extension (value : YamlValue)

/-- Rust `Paths(HashMap<String, Path>)`, as an association list. -/
abbrev Paths := List (String × Path)

/-- Rust `Swagger` of src/v2/mod.rs. -/
structure Swagger where
  swagger : String
  definitions : Option Definitions
  paths : Option Paths
  responses : Option Responses

/-! ## Reference constants and resolution (src/v2/mod.rs) -/

def DEFINITIONS_REF : String := "#/definitions/"

def RESPONSES_REF : String := "#/responses/"

/-- Rust `trim_reference` of src/v2/mod.rs. -/
def trim_reference (ref : String) : String :=
  trimStartMatches (trimStartMatches ref DEFINITIONS_REF) RESPONSES_REF

/-- Rust `Definitions::get`: strips the definitions namespace prefix from the
key, then looks the result up in the table. -/
def Definitions.get (defs : Definitions) (key : String) : Option Schema :=
  List.lookup (trimStartMatches key DEFINITIONS_REF) defs

/-- Result of one fueled run of `Swagger::get_ref_schema`: either the answer
the Rust function returns, or fuel exhaustion, which models the recursion
not terminating within the given depth. -/
inductive ResolveResult where
  | out
  | done (schema : Option Schema)

/-- Rust `Swagger::get_ref_schema` with explicit recursion fuel.  The
definitions namespace is a direct table lookup (the `Definitions::get` prefix
strip included); the responses namespace looks the raw, untrimmed reference
string up in the responses table and recurses through a response alias; every
other shape, a missing table, or a failed lookup yields the absent answer. -/
def Swagger.get_ref_schemaF (sw : Swagger) : Nat → String → ResolveResult
  | 0, _ => .out
  | Nat.succ fuel, ref =>
    if rustStartsWith ref DEFINITIONS_REF then
      match sw.definitions with
      | some definitions => .done (definitions.get ref)
      | none => .done none
    else if rustStartsWith ref RESPONSES_REF then
      match sw.responses with
      | some responses =>
        match List.lookup ref responses with
        | none => .done none
        | some (Response.object response) => .done response.schema
        | some (Response.reference ref) => sw.get_ref_schemaF fuel ref
      | none => .done none
    else .done none

/-- Rust `Swagger::get_ref_schema` squashed to its answer: fuel exhaustion is
read as the absent answer by the callers embedded below (their concrete runs
are given ample fuel; the termination claims use `get_ref_schemaF`). -/
def Swagger.get_ref_schema (sw : Swagger) (fuel : Nat) (ref : String) : Option Schema :=
  match sw.get_ref_schemaF fuel ref with
  | .out => none
  | .done schema => schema

/-! ## The Rust target-type descriptor (src/v2/codegen/backend/rust/types.rs) -/

/-- Rust `RustType`. -/
inductive RustType where
  | i8 | u8 | i16 | u16 | i32 | u32 | i64 | u64
  | isize | usize
  | f32 | f64
  | string
  | dateTime
  | bool
  | vec (t : RustType)
  | object (t : RustType)
  | option (t : RustType)
  | custom (name : String)
  | value
deriving DecidableEq

/-- Rust `Display for RustType` (the `to_string` the backend compares and
prints; the `Custom` arm formats the carried name). -/
def RustType.toStr : RustType → String
  | .i8 => "i8"
  | .u8 => "u8"
  | .i16 => "i16"
  | .u16 => "u16"
  | .i32 => "i32"
  | .u32 => "u32"
  | .i64 => "i64"
  | .u64 => "u64"
  | .f32 => "f32"
  | .f64 => "f64"
  | .isize => "isize"
  | .usize => "usize"
  | .string => "String"
  | .dateTime => "DateTime<Utc>"
  | .bool => "bool"
  | .vec t => "Vec<" ++ t.toStr ++ ">"
  | .object t => "HashMap<String, " ++ t.toStr ++ ">"
  | .option t => "Option<" ++ t.toStr ++ ">"
  | .custom name => format_type_name name
  | .value => "Value"

/-- Rust `RustType::from_integer_format`. -/
def RustType.from_integer_format (format : String) : Option RustType :=
  match format with
  | "int" => some .isize
  | "uint" => some .usize
  | "int64" => some .i64
  | "uint64" => some .u64
  | "int32" => some .i32
  | "uint32" => some .u32
  | "int16" => some .i16
  | "uint16" => some .u16
  | "int8" => some .i8
  | "uint8" => some .u8
  | _ => none

/-! ## The Type Resolver (src/v2/mod.rs, `impl Swagger`)

The three mapping functions (`map_schema_type`, `map_item_type`,
`map_reference_type`) are mutually recursive through reference resolution,
which need not shrink any structure, so the shared recursion is written as
one fueled function over a request tag - each source function is the core
applied to its tag - and every nested call runs on one unit less fuel; with
no fuel the answer is absent.  (A single structural function is used instead
of a Lean `mutual` block so that concrete runs reduce inside the kernel.) -/

/-- Which of the three mutually recursive mapping functions is running. -/
inductive MapRequest where
  | schema (schema : Schema) (ref_ : Option String)
  | item (item : Item)
  | ref (ref : String)

/-- The shared recursion core of the Rust `Swagger::map_schema_type`,
`Swagger::map_item_type` and `Swagger::map_reference_type`; each arm is the
body of the corresponding source function. -/
def Swagger.map_type (sw : Swagger) :
    Nat → MapRequest → Bool → Option String → Option RustType
  | 0, _, _, _ => none
  | Nat.succ fuel, .schema schema ref_, is_required, parent_name =>
    match schema.type_ with
    | none => none
    | some ty =>
      let base : Option RustType :=
        match ty with
        | "integer" =>
          some ((schema.format.bind RustType.from_integer_format).getD RustType.isize)
        | "string" =>
          some (match schema.format.map rustToLowercase with
            | some "date-time" => RustType.dateTime
            | some "datetime" => RustType.dateTime
            | some "date time" => RustType.dateTime
            | some "binary" => RustType.vec RustType.u8
            | _ => RustType.string)
        | "boolean" => some RustType.bool
        | "array" =>
          match ref_ with
          | some ref => some (RustType.custom (trim_reference ref))
          | none =>
            match schema.items with
            | some item =>
              match sw.map_type fuel (.item item) true parent_name with
              | some ty => some (RustType.vec ty)
              | none => none
            | none => none
        | "object" =>
          match ref_ with
          | some ref => some (RustType.custom (trim_reference ref))
          | none =>
            match schema.additional_properties with
            | some item =>
              match sw.map_type fuel (.item item) true parent_name with
              | some ty => some (RustType.object ty)
              | none => none
            | none =>
              match schema.items with
              | some item =>
                match sw.map_type fuel (.item item) true parent_name with
                | some ty => some (RustType.object ty)
                | none => none
              | none =>
                if schema.properties.isSome then
                  some (match schema.name with
                    | some name => RustType.custom name
                    | none =>
                      match parent_name with
                      | some parent_name => RustType.custom (parent_name ++ "InlineItem")
                      | none => RustType.value)
                else some RustType.value
        | "number" =>
          match schema.format with
          | some "double" => some RustType.f64
          | some "float" => some RustType.f32
          | _ => none
        | _ => none
      match base with
      | none => none
      | some ty => some (if is_required then ty else RustType.option ty)
  | Nat.succ fuel, .item item, is_required, parent_name =>
    match item with
    | .reference ref => sw.map_type fuel (.ref ref) is_required parent_name
    | .object item => sw.map_type fuel (.schema item none) is_required parent_name
  | Nat.succ fuel, .ref ref, is_required, parent_name =>
    match sw.get_ref_schema (Nat.succ fuel) ref with
    | none => none
    | some schema =>
      sw.map_type fuel
        (.schema schema
          (some (trimStartMatches (trimStartMatches ref RESPONSES_REF) DEFINITIONS_REF)))
        is_required parent_name

/-- Rust `Swagger::map_schema_type`. -/
def Swagger.map_schema_type (sw : Swagger) (fuel : Nat) (schema : Schema)
    (ref_ : Option String) (is_required : Bool) (parent_name : Option String) :
    Option RustType :=
  sw.map_type fuel (.schema schema ref_) is_required parent_name

/-- Rust `Swagger::map_item_type`. -/
def Swagger.map_item_type (sw : Swagger) (fuel : Nat) (item : Item)
    (is_required : Bool) (parent_name : Option String) : Option RustType :=
  sw.map_type fuel (.item item) is_required parent_name

/-- Rust `Swagger::map_reference_type`. -/
def Swagger.map_reference_type (sw : Swagger) (fuel : Nat) (ref : String)
    (is_required : Bool) (parent_name : Option String) : Option RustType :=
  sw.map_type fuel (.ref ref) is_required parent_name

/-! ## The legacy driver Type Resolver (src/v2/codegen/mod.rs, `impl CodeGenerator`)

The repository also carries the earlier, driver-resident copy of the mapping
family.  Its body differs from the `Swagger` one in exactly one place: an
integer format that is absent or unrecognised defaults to the pointer-sized
UNSIGNED integer (`RustType::USize`, line 135 of src/v2/codegen/mod.rs). -/

/-- The shared recursion core of the legacy `CodeGenerator::map_schema_type`,
`CodeGenerator::map_item_type` and `CodeGenerator::map_reference`; identical
to `Swagger.map_type` except for the unsigned integer default. -/
def CodeGenerator.map_type (sw : Swagger) :
    Nat → MapRequest → Bool → Option String → Option RustType
  | 0, _, _, _ => none
  | Nat.succ fuel, .schema schema ref_, is_required, parent_name =>
    match schema.type_ with
    | none => none
    | some ty =>
      let base : Option RustType :=
        match ty with
        | "integer" =>
          some ((schema.format.bind RustType.from_integer_format).getD RustType.usize)
        | "string" =>
          some (match schema.format.map rustToLowercase with
            | some "date-time" => RustType.dateTime
            | some "datetime" => RustType.dateTime
            | some "date time" => RustType.dateTime
            | some "binary" => RustType.vec RustType.u8
            | _ => RustType.string)
        | "boolean" => some RustType.bool
        | "array" =>
          match ref_ with
          | some ref => some (RustType.custom (trim_reference ref))
          | none =>
            match schema.items with
            | some item =>
              match CodeGenerator.map_type sw fuel (.item item) true parent_name with
              | some ty => some (RustType.vec ty)
              | none => none
            | none => none
        | "object" =>
          match ref_ with
          | some ref => some (RustType.custom (trim_reference ref))
          | none =>
            match schema.additional_properties with
            | some item =>
              match CodeGenerator.map_type sw fuel (.item item) true parent_name with
              | some ty => some (RustType.object ty)
              | none => none
            | none =>
              match schema.items with
              | some item =>
                match CodeGenerator.map_type sw fuel (.item item) true parent_name with
                | some ty => some (RustType.object ty)
                | none => none
              | none =>
                if schema.properties.isSome then
                  some (match schema.name with
                    | some name => RustType.custom name
                    | none =>
                      match parent_name with
                      | some parent_name => RustType.custom (parent_name ++ "InlineItem")
                      | none => RustType.value)
                else some RustType.value
        | "number" =>
          match schema.format with
          | some "double" => some RustType.f64
          | some "float" => some RustType.f32
          | _ => none
        | _ => none
      match base with
      | none => none
      | some ty => some (if is_required then ty else RustType.option ty)
  | Nat.succ fuel, .item item, is_required, parent_name =>
    match item with
    | .reference ref => CodeGenerator.map_type sw fuel (.ref ref) is_required parent_name
    | .object item =>
      CodeGenerator.map_type sw fuel (.schema item none) is_required parent_name
  | Nat.succ fuel, .ref ref, is_required, parent_name =>
    match sw.get_ref_schema (Nat.succ fuel) ref with
    | none => none
    | some schema =>
      CodeGenerator.map_type sw fuel
        (.schema schema
          (some (trimStartMatches (trimStartMatches ref RESPONSES_REF) DEFINITIONS_REF)))
        is_required parent_name

/-- Rust `CodeGenerator::map_schema_type` of src/v2/codegen/mod.rs. -/
def CodeGenerator.map_schema_type (sw : Swagger) (fuel : Nat) (schema : Schema)
    (ref_ : Option String) (is_required : Bool) (parent_name : Option String) :
    Option RustType :=
  CodeGenerator.map_type sw fuel (.schema schema ref_) is_required parent_name

/-- Rust `CodeGenerator::map_item_type` of src/v2/codegen/mod.rs. -/
def CodeGenerator.map_item_type (sw : Swagger) (fuel : Nat) (item : Item)
    (is_required : Bool) (parent_name : Option String) : Option RustType :=
  CodeGenerator.map_type sw fuel (.item item) is_required parent_name

/-- Rust `CodeGenerator::map_reference` of src/v2/codegen/mod.rs. -/
def CodeGenerator.map_reference (sw : Swagger) (fuel : Nat) (ref : String)
    (is_required : Bool) (parent_name : Option String) : Option RustType :=
  CodeGenerator.map_type sw fuel (.ref ref) is_required parent_name

/-! ## The Composition Merger (src/v2/mod.rs, `Swagger::merge_all_of_schema`) -/

/-- Resolution of one `allOf` component: a bare-reference component is looked
up first, falling back to itself when the lookup fails. -/
def Swagger.resolve_all_of_component (sw : Swagger) (fuel : Nat) (schema : Schema) : Schema :=
  match schema.ref_ with
  | some ref => (sw.get_ref_schema fuel ref).getD schema
  | none => schema

/-- One step of the `allOf` fold: the component property map is inserted in
front of the accumulator map (`HashMap::extend`, later entries overriding on
lookup), the scalar fields are filled only when still unset
(`add_if_not_set!`), and the required and enum lists are taken wholesale when
the accumulator list is still empty and the component list is not. -/
def merge_step (acc schema : Schema) : Schema :=
  let a := acc.unwrap
  let s := schema.unwrap
  let a := { a with properties :=
    match a.properties with
    | some props =>
      some (match s.properties with
        | some new_props => new_props ++ props
        | none => props)
    | none => none }
  let a := { a with format := match a.format with | some v => some v | none => s.format }
  let a := { a with title := match a.title with | some v => some v | none => s.title }
  let a := { a with description :=
    match a.description with | some v => some v | none => s.description }
  let a := { a with type_ := match a.type_ with | some v => some v | none => s.type_ }
  let a := { a with required :=
    if a.required.isEmpty && !s.required.isEmpty then s.required else a.required }
  let a := { a with enum_ :=
    if a.enum_.isEmpty && !s.enum_.isEmpty then s.enum_ else a.enum_ }
  Schema.mk a

/-- The accumulator the fold starts from: the outer title and description and
an empty property map, every other field defaulted. -/
def base_all_of_schema (schema : Schema) : Schema :=
  .mk { ref_ := none, format := none, title := schema.title,
        description := schema.description, required := [], type_ := none, items := none,
        properties := some [], additional_properties := none, enum_ := [], all_of := [],
        x_go_name := none, x_go_package := none }

/-- Rust `Swagger::merge_all_of_schema` of src/v2/mod.rs: a no-op when the
`allOf` list is empty, otherwise a left fold of `merge_step` over the
components, each resolved first when it is a bare reference. -/
def Swagger.merge_all_of_schema (sw : Swagger) (fuel : Nat) (schema : Schema) : Schema :=
  if !schema.all_of.isEmpty then
    schema.all_of.foldl
      (fun acc schema => merge_step acc (sw.resolve_all_of_component fuel schema))
      (base_all_of_schema schema)
  else schema

/-! ## The Prototyper (src/v2/codegen/prototyper.rs)

The prototype walk recurses into schemas reached by table lookup only through
the composition merger, and structurally through nested items and
properties; a single fuel argument bounds the recursion depth (the source
walk is structural, so any fuel beyond the nesting depth of the document is
enough).  Property maps are walked in list order, modelling one iteration
order of the source `HashMap`. -/

/-- Rust `ModelPrototype`. -/
structure ModelPrototype where
  name : String
  parent_name : Option String
  schema : Item

/-- Rust `Prototyper::add_ref_prototype` (the single pushed prototype). -/
def Prototyper.add_ref_prototype (name : String) (parent_name : Option String)
    (ref : String) : List ModelPrototype :=
  [{ name := name, parent_name := parent_name, schema := ItemF.reference ref }]

/-- Rust `Prototyper::add_schema_prototype` (the prototypes pushed, in push
order): a synthesized InlineItem name is replaced by the schema own name; a
bare-reference schema emits one Reference prototype and stops; an inline
object array item and eligible inline property schemas are recursed into
first; finally the schema itself is pushed as an Object prototype. -/
def Prototyper.add_schema_prototype :
    Nat → String → Option String → Schema → List ModelPrototype
  | 0, _, _, _ => []
  | Nat.succ fuel, name, parent_name, schema =>
    let name := if rustEndsWith name "InlineItem" then
        match schema.name with
        | some schema_name => schema_name
        | none => name
      else name
    match schema.ref_ with
    | some ref => Prototyper.add_ref_prototype name parent_name ref
    | none =>
      let from_items :=
        match schema.items with
        | some (ItemF.object child_schema) =>
          if child_schema.is_object then
            Prototyper.add_schema_prototype fuel
              ((child_schema.name).getD (name ++ "InlineItem")) parent_name child_schema
          else []
        | _ => []
      let from_props :=
        match schema.properties with
        | some props =>
          props.flatMap (fun entry =>
            match entry.2 with
            | ItemF.object prop_schema =>
              let prop_name :=
                (prop_schema.name).getD (name ++ entry.1 ++ "InlineItem")
              if prop_schema.is_object && prop_schema.properties.isSome then
                Prototyper.add_schema_prototype fuel prop_name (some name) prop_schema
              else if prop_schema.is_array then
                match prop_schema.items with
                | some (ItemF.object item_schema) =>
                  if item_schema.is_object then
                    Prototyper.add_schema_prototype fuel prop_name (some name) item_schema
                  else []
                | _ => []
              else if prop_schema.is_enum then
                Prototyper.add_schema_prototype fuel prop_name (some name) prop_schema
              else []
            | _ => [])
        | none => []
      from_items ++ from_props
        ++ [{ name := name, parent_name := parent_name, schema := ItemF.object schema }]

/-- Rust `Prototyper::add_definition_models`: definitions sorted by name,
each composition-merged and walked. -/
def Prototyper.add_definition_models (sw : Swagger) (fuel : Nat) : List ModelPrototype :=
  match sw.definitions with
  | some definitions =>
    let definitions := definitions.insertionSort (fun a b => strLe a.1 b.1 = true)
    definitions.flatMap (fun entry =>
      Prototyper.add_schema_prototype fuel entry.1 none
        (sw.merge_all_of_schema fuel entry.2))
  | none => []

/-- Rust `Prototyper::add_responses_models`: named responses sorted by name;
an object response with an inline schema gets the response description and is
walked, a reference response pushes a Reference prototype. -/
def Prototyper.add_responses_models (sw : Swagger) (fuel : Nat) : List ModelPrototype :=
  match sw.responses with
  | some responses =>
    let responses := responses.insertionSort (fun a b => strLe a.1 b.1 = true)
    responses.flatMap (fun entry =>
      match entry.2 with
      | Response.object response =>
        match response.schema with
        | some schema =>
          Prototyper.add_schema_prototype fuel entry.1 none
            (sw.merge_all_of_schema fuel (schema.withDescription response.description))
        | none => []
      | Response.reference ref => Prototyper.add_ref_prototype entry.1 none ref)
  | none => []

/-- One HTTP method of one path (the body of the `handle_method` macro):
response bodies then body parameters. -/
def Prototyper.handle_method (sw : Swagger) (fuel : Nat) :
    Option Operation → List ModelPrototype
  | none => []
  | some op =>
    (op.responses.flatMap (fun entry =>
      match entry.2 with
      | Response.object response =>
        match response.schema with
        | some schema =>
          Prototyper.add_schema_prototype fuel
            ((op.operation_id.getD "InlineResponse") ++ entry.1 ++ "Response") none
            (sw.merge_all_of_schema fuel (schema.withDescription response.description))
        | none => []
      | _ => []))
    ++ (op.parameters.flatMap (fun param =>
      match param with
      | Parameter.body param =>
        Prototyper.add_schema_prototype fuel
          (format_type_name (op.operation_id.getD "InlineResponse")
            ++ format_type_name param.name ++ "Param") none
          (sw.merge_all_of_schema fuel param.schema)
      | _ => []))

/-- Rust `Prototyper::add_paths_models`: paths sorted by name, the seven
methods in the fixed source order, extensions skipped. -/
def Prototyper.add_paths_models (sw : Swagger) (fuel : Nat) : List ModelPrototype :=
  match sw.paths with
  | some paths =>
    let paths := paths.insertionSort (fun a b => strLe a.1 b.1 = true)
    paths.flatMap (fun entry =>
      match entry.2 with
      | Path.item path =>
        Prototyper.handle_method sw fuel path.get
          ++ Prototyper.handle_method sw fuel path.put
          ++ Prototyper.handle_method sw fuel path.post
          ++ Prototyper.handle_method sw fuel path.delete
          ++ Prototyper.handle_method sw fuel path.options
          ++ Prototyper.handle_method sw fuel path.head
          ++ Prototyper.handle_method sw fuel path.patch
      | Path.extension _ => [])
  | none => []

/-- Rust `Prototyper::generate_prototypes`: definitions, then responses,
then paths. -/
def Prototyper.generate_prototypes (sw : Swagger) (fuel : Nat) : List ModelPrototype :=
  Prototyper.add_definition_models sw fuel
    ++ Prototyper.add_responses_models sw fuel
    ++ Prototyper.add_paths_models sw fuel

/-! ## The Driver ordering (src/v2/codegen/backend/mod.rs) -/

/-- The comparator of the prototype sort, as the Boolean `a` sorts no later
than `b` (the Rust comparator returns `Greater` exactly when this is false):
Object-kind before Reference-kind, ties by name. -/
def proto_le (a b : ModelPrototype) : Bool :=
  match a.schema.is_reference, b.schema.is_reference with
  | true, true => strLe a.name b.name
  | false, false => strLe a.name b.name
  | true, false => false
  | false, true => true

/-- Rust `CodegenBackend::prototypes`: one Prototyper run, then the sort by
the `sort_by` comparator.  Rust `sort_by` is a stable sort and a stable sort
by a total preorder has a unique result, so the stable `insertionSort`
models it exactly. -/
def CodegenBackend.prototypes (sw : Swagger) (fuel : Nat) : List ModelPrototype :=
  (Prototyper.generate_prototypes sw fuel).insertionSort (fun a b => proto_le a b = true)

/-! ## The Rust backend emission pass (src/v2/codegen/backend/rust/backend.rs)

The output stream is modelled as the list of emitted declaration blocks, each
identified by its kind, its formatted type name and (for an alias) the
right-hand-side type text: these are exactly the data the emission logic
itself reads back (the name-collision and self-alias checks).  Doc comments,
derives, serde attributes and the per-field lines of a record are rendering
only - they read neither the registry nor the output - and are not modelled.
The registry (`generated_models`) and the output grow by explicit state
passing, in the exact order of the source writes and pushes. -/

/-- One emitted declaration block. -/
inductive Decl where
  | structDecl (type_name : String)
  | enumDecl (type_name : String)
  | aliasDecl (type_name : String) (rhs : String)
deriving DecidableEq

/-- The formatted type name a declaration block declares. -/
def Decl.declName : Decl → String
  | .structDecl n => n
  | .enumDecl n => n
  | .aliasDecl n _ => n

/-- Whether a declaration block is a type alias. -/
def Decl.isAlias : Decl → Bool
  | .aliasDecl _ _ => true
  | _ => false

/-- The mutable state of one emission run: the `generated_models` registry of
`RustCodegen` and the output stream. -/
structure GenState where
  generated_models : List String
  output : List Decl
deriving DecidableEq

/-- Rust `RustCodegen::generate_reference_model`: resolve, merge, keep only
object targets, map the reference, then the self-alias and registry checks
guard the alias write. -/
def RustCodegen.generate_reference_model (sw : Swagger) (fuel : Nat) (ref : String)
    (model : ModelPrototype) (st : GenState) : GenState :=
  match sw.get_ref_schema fuel ref with
  | none => st
  | some schema =>
    let schema := sw.merge_all_of_schema fuel schema
    if !schema.is_object then st
    else
      match sw.map_reference_type fuel ref true (some model.name) with
      | none => st
      | some ty =>
        let type_name := format_type_name model.name
        let ty_str := ty.toStr
        if type_name = ty_str then st
        else if st.generated_models.contains type_name then st
        else
          { generated_models := st.generated_models ++ [type_name],
            output := st.output ++ [Decl.aliasDecl type_name ty_str] }

/-- Rust `RustCodegen::generate_props_schema`: the record is written and its
name pushed, with no self-alias or registry check on this path. -/
def RustCodegen.generate_props_schema (name : String) (st : GenState) : GenState :=
  let type_name := format_type_name name
  { generated_models := st.generated_models ++ [type_name],
    output := st.output ++ [Decl.structDecl type_name] }

/-- Rust `RustCodegen::generate_array_schema`: map the item type, then the
self-alias and registry checks guard the alias write. -/
def RustCodegen.generate_array_schema (sw : Swagger) (fuel : Nat) (name : String)
    (schema : Schema) (st : GenState) : GenState :=
  match schema.items with
  | none => st
  | some item =>
    match sw.map_item_type fuel item true (some name) with
    | none => st
    | some ty =>
      let ty := RustType.vec ty
      let type_name := format_type_name name
      let ty_str := ty.toStr
      if type_name = ty_str then st
      else if st.generated_models.contains type_name then st
      else
        { generated_models := st.generated_models ++ [type_name],
          output := st.output ++ [Decl.aliasDecl type_name ty_str] }

/-- Rust `RustCodegen::generate_enum_schema`: the enumeration is written and
its name pushed, with no registry check on this path. -/
def RustCodegen.generate_enum_schema (name : String) (st : GenState) : GenState :=
  let type_name := format_type_name name
  { generated_models := st.generated_models ++ [type_name],
    output := st.output ++ [Decl.enumDecl type_name] }

/-- Rust `RustCodegen::generate_schema`: the empty-name fallback, then the
branch chain over the schema shape; the basic-type alias arm carries the
self-alias and registry checks. -/
def RustCodegen.generate_schema (sw : Swagger) (fuel : Nat) (name : String)
    (parent_name : Option String) (schema : Schema) (st : GenState) : GenState :=
  let name := if name.isEmpty then
      (schema.name).getD ((parent_name.map (fun parent_name =>
        parent_name ++ "InlineItem")).getD name)
    else name
  let type_name := format_type_name name
  if schema.properties.isSome then RustCodegen.generate_props_schema name st
  else if schema.is_array then RustCodegen.generate_array_schema sw fuel name schema st
  else if schema.is_string_enum then RustCodegen.generate_enum_schema name st
  else if schema.ref_.isSome then st
  else
    match sw.map_schema_type fuel schema none true (some name) with
    | some ty =>
      let ty_str := ty.toStr
      if type_name = ty_str then st
      else if st.generated_models.contains type_name then st
      else
        { generated_models := st.generated_models ++ [type_name],
          output := st.output ++ [Decl.aliasDecl type_name ty_str] }
    | none => st

/-- Rust `RustCodegen::generate_object_model`: merge, then `generate_schema`. -/
def RustCodegen.generate_object_model (sw : Swagger) (fuel : Nat) (schema : Schema)
    (model : ModelPrototype) (st : GenState) : GenState :=
  let schema := sw.merge_all_of_schema fuel schema
  RustCodegen.generate_schema sw fuel model.name model.parent_name schema st

/-- Rust `RustCodegen::generate_model` (the `CodegenBackend` entry point). -/
def RustCodegen.generate_model (sw : Swagger) (fuel : Nat) (model : ModelPrototype)
    (st : GenState) : GenState :=
  match model.schema with
  | ItemF.reference ref => RustCodegen.generate_reference_model sw fuel ref model st
  | ItemF.object schema => RustCodegen.generate_object_model sw fuel schema model st

/-- One emission run over a given prototype list, from a given state. -/
def RustCodegen.generate_models_from (sw : Swagger) (fuel : Nat)
    (prototypes : List ModelPrototype) (st : GenState) : GenState :=
  prototypes.foldl (fun st model => RustCodegen.generate_model sw fuel model st) st

/-- Rust `CodegenBackend::generate_models` for the Rust backend: the sorted
prototypes of one Prototyper run, emitted in order from the empty state. -/
def RustCodegen.generate_models (sw : Swagger) (fuel : Nat) : GenState :=
  RustCodegen.generate_models_from sw fuel (CodegenBackend.prototypes sw fuel)
    { generated_models := [], output := [] }

/-! ## Derived notions used by the theorems -/

/-- No `Option` wrapper occurs anywhere inside the type. -/
def RustType.option_free : RustType → Bool
  | .option _ => false
  | .vec t => t.option_free
  | .object t => t.option_free
  | _ => true

/-- No `Option` wrapper directly wraps another `Option` wrapper. -/
def RustType.no_nested_option : RustType → Bool
  | .option (.option _) => false
  | .option t => t.no_nested_option
  | .vec t => t.no_nested_option
  | .object t => t.no_nested_option
  | _ => true

/-- First present value of a list of optional values, in list order. -/
def first_some {α : Type} : List (Option α) → Option α
  | [] => none
  | some a :: _ => some a
  | none :: rest => first_some rest

/-- First non-empty list of a list of lists, in list order (empty when all
are empty). -/
def first_non_empty {α : Type} : List (List α) → List α
  | [] => []
  | l :: rest => if l.isEmpty then first_non_empty rest else l

/-- Lookup of one property name in the property map of a schema. -/
def prop_lookup (s : Schema) (k : String) : Option Item :=
  match s.properties with
  | some props => List.lookup k props
  | none => none

/-- The single alias step hidden in the responses branch of
`Swagger::get_ref_schema`: the reference the function recurses on, when it
recurses at all. -/
def Swagger.alias_next (sw : Swagger) (ref : String) : Option String :=
  if rustStartsWith ref DEFINITIONS_REF then none
  else if rustStartsWith ref RESPONSES_REF then
    match sw.responses with
    | some responses =>
      match List.lookup ref responses with
      | some (Response.reference ref) => some ref
      | _ => none
    | none => none
  else none

/-- The chain of references `get_ref_schema` walks: position 0 is the
starting reference, each later position follows one alias step. -/
def Swagger.alias_orbit (sw : Swagger) (ref : String) : Nat → Option String
  | 0 => some ref
  | Nat.succ n => (sw.alias_orbit ref n).bind sw.alias_next

/-- Every reference string a response alias in the table can point to. -/
def Swagger.response_alias_targets (sw : Swagger) : List String :=
  match sw.responses with
  | some responses =>
    responses.filterMap (fun entry =>
      match entry.2 with
      | Response.reference ref => some ref
      | _ => none)
  | none => []

/-- Acyclicity of the alias chain from `ref`: within the pigeonhole window
(one more than the number of alias targets), no reference is visited twice. -/
def AcyclicAliases (sw : Swagger) (ref : String) : Prop :=
  ∀ i j x, i < j → j ≤ sw.response_alias_targets.length + 1 →
    sw.alias_orbit ref i = some x → sw.alias_orbit ref j = some x → False

/-! ## Concrete documents and schemas used as inputs -/

/-- A document with no tables at all. -/
def emptySwagger : Swagger :=
  { swagger := "2.0", definitions := none, paths := none, responses := none }

/-- A schema node with the `integer` type tag and no other field. -/
def intSchema : Schema :=
  Schema.mk { Schema.default.unwrap with type_ := some "integer" }

/-- A schema node with the `integer` type tag and an integer format no
integer format table entry matches. -/
def weirdIntSchema : Schema :=
  Schema.mk { Schema.default.unwrap with
    type_ := some "integer",
    format := some "int7" }

/-- Scenario D: an `object` node carrying only `additionalProperties` with an
integer value schema. -/
def schemaD : Schema :=
  Schema.mk { Schema.default.unwrap with
    type_ := some "object",
    additional_properties := some (ItemF.object intSchema) }

/-- An inline object schema with one string property, the body of the
response named Bar below. -/
def barSchema : Schema :=
  Schema.mk { Schema.default.unwrap with
    type_ := some "object",
    properties := some [("message",
      ItemF.object (Schema.mk { Schema.default.unwrap with type_ := some "string" }))] }

/-- A two-hop response-alias document with the response table keyed, as a
parsed document keys it, by the bare response names: Foo is an alias to Bar,
Bar carries an inline schema. -/
def responseChainSwagger : Swagger :=
  { swagger := "2.0", definitions := none, paths := none,
    responses := some
      [("Foo", Response.reference "#/responses/Bar"),
       ("Bar", Response.object { description := some "bar", schema := some barSchema })] }

/-- The same two-hop document with the response table keyed by the full
reference strings: the only keying under which the lookup of the untrimmed
reference can succeed. -/
def fullKeyChainSwagger : Swagger :=
  { swagger := "2.0", definitions := none, paths := none,
    responses := some
      [("#/responses/Foo", Response.reference "#/responses/Bar"),
       ("#/responses/Bar",
        Response.object { description := some "bar", schema := some barSchema })] }

/-- A circular response-alias document (full-reference keys, so that the
aliases actually resolve and chase each other). -/
def cyclicSwagger : Swagger :=
  { swagger := "2.0", definitions := none, paths := none,
    responses := some
      [("#/responses/Foo", Response.reference "#/responses/Bar"),
       ("#/responses/Bar", Response.reference "#/responses/Foo")] }

/-- A record schema with one integer property named a. -/
def fooSchema : Schema :=
  Schema.mk { Schema.default.unwrap with
    type_ := some "object",
    properties := some [("a", ItemF.object intSchema)] }

/-- A record schema with one integer property named b. -/
def fooSchema2 : Schema :=
  Schema.mk { Schema.default.unwrap with
    type_ := some "object",
    properties := some [("b", ItemF.object intSchema)] }

/-- A document whose two definitions, named `Foo` and `foo`, format to the
same type name `Foo`. -/
def collidingSwagger : Swagger :=
  { swagger := "2.0",
    definitions := some [("Foo", fooSchema), ("foo", fooSchema2)],
    paths := none, responses := none }

/-- Scenario A and B: the `Pet` record. -/
def petSchema : Schema :=
  Schema.mk { Schema.default.unwrap with
    type_ := some "object",
    required := ["name"],
    properties := some
      [("name", ItemF.object (Schema.mk { Schema.default.unwrap with type_ := some "string" })),
       ("tag", ItemF.object (Schema.mk { Schema.default.unwrap with type_ := some "string" }))] }

/-- The `Pets` definition: an array whose item is a reference to `Pet`. -/
def petsSchema : Schema :=
  Schema.mk { Schema.default.unwrap with
    type_ := some "array",
    items := some (ItemF.reference "#/definitions/Pet") }

/-- The scenario B document. -/
def petStoreSwagger : Swagger :=
  { swagger := "2.0",
    definitions := some [("Pet", petSchema), ("Pets", petsSchema)],
    paths := none, responses := none }

/-- First `allOf` component: property x, title T1, one required name. -/
def componentA : Schema :=
  Schema.mk { Schema.default.unwrap with
    title := some "T1",
    format := some "fA",
    required := ["r1"],
    properties := some [("x", ItemF.object intSchema)] }

/-- Second `allOf` component: properties x and y, title T2, enum literals. -/
def componentB : Schema :=
  Schema.mk { Schema.default.unwrap with
    title := some "T2",
    type_ := some "object",
    enum_ := [YamlValue.str "e1"],
    properties := some [("x", ItemF.object barSchema), ("y", ItemF.object intSchema)] }

/-- An outer schema composed of the two components, itself untitled. -/
def allOfSchema : Schema :=
  Schema.mk { Schema.default.unwrap with
    description := some "outer",
    all_of := [componentA, componentB] }

/-- The alias-freshness relation on emitted declarations: a later alias never
reuses the name of an earlier declaration. -/
def AliasFresh (a b : Decl) : Prop :=
  b.isAlias = true → a.declName ≠ b.declName

/-- The invariant the emission pass maintains: the registry lists exactly the
names of the emitted declarations, in order, and every emitted alias is fresh
against every earlier declaration. -/
def GenInv (st : GenState) : Prop :=
  st.generated_models = st.output.map Decl.declName
  ∧ List.Pairwise AliasFresh st.output

/-! ## Theorems -/

theorem keywords_no_trailing_underscore :
    RUST_KEYWORDS.all (fun w => w.data.getLast? != some (Char.ofNat 95)) = true := by
  decide

theorem append_underscore_not_keyword (s : String) : is_keyword (s ++ "_") = false := by
  rw [is_keyword]
  cases hc : RUST_KEYWORDS.contains (s ++ "_") with
  | false => rfl
  | true =>
    exfalso
    have hmem : (s ++ "_") ∈ RUST_KEYWORDS := by
      simpa using hc
    have hall := keywords_no_trailing_underscore
    rw [List.all_eq_true] at hall
    have hw := hall _ hmem
    have hlast : (s ++ "_").data.getLast? = some (Char.ofNat 95) := by
      have hd : (s ++ "_").data = s.data ++ [Char.ofNat 95] := rfl
      rw [hd]
      simp
    rw [hlast] at hw
    simp at hw

theorem fix_name_not_keyword (s : String) : is_keyword (fix_name_if_keyword s) = false := by
  rw [fix_name_if_keyword]
  cases h : is_keyword s with
  | false => simp [h]
  | true => simpa [h] using append_underscore_not_keyword s

theorem fix_name_of_keyword (s : String) (h : is_keyword s = true) :
    fix_name_if_keyword s = s ++ "_" := by
  simp [fix_name_if_keyword, h]

/-- C10: the naming helpers never return a reserved Rust keyword: the cased
name gets a trailing underscore appended exactly when it equals a keyword of
the table, and the result is never itself in the table. -/
theorem c10_formatted_names_avoid_keywords (name : String) :
    is_keyword (format_type_name name) = false
    ∧ is_keyword (format_var_name name) = false
    ∧ (is_keyword (toCaseUpperCamel name) = true →
        format_type_name name = toCaseUpperCamel name ++ "_")
    ∧ (is_keyword (toCaseSnake (rustReplaceChar (rustReplaceChar name '-' '_') '.' '_')) = true →
        format_var_name name
          = toCaseSnake (rustReplaceChar (rustReplaceChar name '-' '_') '.' '_') ++ "_") := by
  refine ⟨fix_name_not_keyword _, fix_name_not_keyword _, fun h => ?_, fun h => ?_⟩
  · exact fix_name_of_keyword _ h
  · exact fix_name_of_keyword _ h

/-- C5: `merge_all_of_schema` is the identity on a schema whose `allOf` list
is empty (absence deserialises to the empty list). -/
theorem c5_merge_all_of_noop (sw : Swagger) (fuel : Nat) (schema : Schema)
    (h : schema.all_of = []) : sw.merge_all_of_schema fuel schema = schema := by
  rw [Swagger.merge_all_of_schema, h]
  rfl

theorem c5_witness :
    Swagger.merge_all_of_schema emptySwagger 3 petSchema = petSchema :=
  c5_merge_all_of_noop emptySwagger 3 petSchema rfl

/-- C1 (amended): with type tag `integer` and a format that is absent or
matches no table entry, the current Type Resolver `Swagger::map_schema_type`
defaults to the pointer-sized signed integer, while the legacy driver copy
`CodeGenerator::map_schema_type` defaults to the pointer-sized unsigned
integer; both wrap the result in `Option` exactly when the node is not
required. -/
theorem c1_integer_default (sw : Swagger) (fuel : Nat) (schema : Schema)
    (is_required : Bool) (parent_name : Option String)
    (h1 : schema.type_ = some "integer")
    (h2 : schema.format.bind RustType.from_integer_format = none) :
    sw.map_schema_type (fuel + 1) schema none is_required parent_name
      = some (if is_required then RustType.isize else RustType.option RustType.isize)
    ∧ CodeGenerator.map_schema_type sw (fuel + 1) schema none is_required parent_name
      = some (if is_required then RustType.usize else RustType.option RustType.usize) := by
  constructor
  · rw [Swagger.map_schema_type]
    simp only [Swagger.map_type, h1]
    simp [h2]
  · rw [CodeGenerator.map_schema_type]
    simp only [CodeGenerator.map_type, h1]
    simp [h2]

theorem c1_witness :
    Swagger.map_schema_type emptySwagger 1 weirdIntSchema none false none
      = some (RustType.option RustType.isize) :=
  (c1_integer_default emptySwagger 0 weirdIntSchema false none rfl rfl).1

/-- C1 counterexample to the claim as stated: at a concrete integer node with
no format, the cited `CodeGenerator::map_schema_type` returns the
pointer-sized UNSIGNED integer, not the signed one the claim names. -/
theorem c1_counterexample :
    CodeGenerator.map_schema_type emptySwagger 1 intSchema none true none
      = some RustType.usize
    ∧ some RustType.usize ≠ some RustType.isize :=
  ⟨rfl, by decide⟩

/-- C3: on the two-hop response-alias chain, keyed by bare response names the
way a parsed document keys its response table, resolution of
`#/responses/Foo` returns absent - the responses branch looks the full,
untrimmed reference string up in the table - so the chain never resolves to
the inline schema of Bar; an unknown name also resolves to absent (that part
of the claim holds); only under a table pathologically keyed by full
reference strings does the alias recursion fire and reach the inline schema. -/
theorem c3_response_alias_resolution :
    Swagger.get_ref_schema responseChainSwagger 9 "#/responses/Foo" = none
    ∧ Swagger.get_ref_schema responseChainSwagger 9 "#/responses/Missing" = none
    ∧ Swagger.get_ref_schema fullKeyChainSwagger 9 "#/responses/Foo" = some barSchema := by
  refine ⟨rfl, rfl, rfl⟩

/-- C8: the priority order of the `object` arm of the Type Resolver: a ref
hint yields a named reference to the trimmed reference; else a present
`additionalProperties` schema yields a map of its recursively resolved value
type; else a legacy `items` field yields a map of the item type; else present
properties yield a named reference from the vendor name, else the title,
else the parent hint with the InlineItem suffix, else the untyped fallback;
else the untyped fallback. -/
theorem c8_object_priority (sw : Swagger) (fuel : Nat) (schema : Schema)
    (is_required : Bool) (parent_name : Option String)
    (h : schema.type_ = some "object") :
    (∀ ref, sw.map_schema_type (fuel + 1) schema (some ref) is_required parent_name
        = some (if is_required then RustType.custom (trim_reference ref)
            else RustType.option (RustType.custom (trim_reference ref))))
    ∧ (∀ item, schema.additional_properties = some item →
        sw.map_schema_type (fuel + 1) schema none is_required parent_name
          = match sw.map_item_type fuel item true parent_name with
            | some t => some (if is_required then RustType.object t
                else RustType.option (RustType.object t))
            | none => none)
    ∧ (schema.additional_properties = none → ∀ item, schema.items = some item →
        sw.map_schema_type (fuel + 1) schema none is_required parent_name
          = match sw.map_item_type fuel item true parent_name with
            | some t => some (if is_required then RustType.object t
                else RustType.option (RustType.object t))
            | none => none)
    ∧ (schema.additional_properties = none → schema.items = none →
        schema.properties.isSome = true →
        sw.map_schema_type (fuel + 1) schema none is_required parent_name
          = some (if is_required then (match schema.name with
              | some n => RustType.custom n
              | none => match parent_name with
                | some p => RustType.custom (p ++ "InlineItem")
                | none => RustType.value)
            else RustType.option (match schema.name with
              | some n => RustType.custom n
              | none => match parent_name with
                | some p => RustType.custom (p ++ "InlineItem")
                | none => RustType.value)))
    ∧ (schema.additional_properties = none → schema.items = none →
        schema.properties = none →
        sw.map_schema_type (fuel + 1) schema none is_required parent_name
          = some (if is_required then RustType.value
              else RustType.option RustType.value)) := by
  refine ⟨fun ref => ?_, fun item hap => ?_, fun hap item hit => ?_,
    fun hap hit hpr => ?_, fun hap hit hpr => ?_⟩
  · rw [Swagger.map_schema_type]
    simp only [Swagger.map_type, h]
  · rw [Swagger.map_schema_type]
    simp only [Swagger.map_type, h, hap]
    rw [show sw.map_type fuel (MapRequest.item item) true parent_name
        = sw.map_item_type fuel item true parent_name from rfl]
    cases sw.map_item_type fuel item true parent_name <;> rfl
  · rw [Swagger.map_schema_type]
    simp only [Swagger.map_type, h, hap, hit]
    rw [show sw.map_type fuel (MapRequest.item item) true parent_name
        = sw.map_item_type fuel item true parent_name from rfl]
    cases sw.map_item_type fuel item true parent_name <;> rfl
  · rw [Swagger.map_schema_type]
    simp only [Swagger.map_type, h, hap, hit, hpr]
    rfl
  · rw [Swagger.map_schema_type]
    simp only [Swagger.map_type, h, hap, hit, hpr]
    rfl

theorem c8_witness :
    Swagger.map_schema_type emptySwagger 3 schemaD none true none
      = some (RustType.object RustType.isize) := by
  have h := (c8_object_priority emptySwagger 2 schemaD true none rfl).2.1
    (ItemF.object intSchema) rfl
  rw [show emptySwagger.map_item_type 2 (ItemF.object intSchema) true none
      = some RustType.isize from rfl] at h
  exact h

theorem charListLe_inv (a b : Char) (as bs : List Char)
    (h : charListLe (a :: as) (b :: bs) = true) :
    a < b ∨ (a = b ∧ charListLe as bs = true) := by
  by_cases hab : a < b
  · exact Or.inl hab
  · by_cases heq : a = b
    · refine Or.inr ⟨heq, ?_⟩
      simpa [charListLe, hab, heq] using h
    · exact absurd h (by simp [charListLe, hab, heq])

theorem charListLe_trans : ∀ (a b c : List Char),
    charListLe a b = true → charListLe b c = true → charListLe a c = true
  | [], _, _, _, _ => rfl
  | a :: as, [], _, h1, _ => Bool.noConfusion h1
  | a :: as, b :: bs, [], _, h2 => Bool.noConfusion h2
  | a :: as, b :: bs, c :: cs, h1, h2 => by
    rcases charListLe_inv a b as bs h1 with hab | ⟨hab, hrec1⟩ <;>
      rcases charListLe_inv b c bs cs h2 with hbc | ⟨hbc, hrec2⟩
    · simp [charListLe, lt_trans hab hbc]
    · subst hbc
      simp [charListLe, hab]
    · subst hab
      simp [charListLe, hbc]
    · subst hab
      subst hbc
      simpa [charListLe, lt_irrefl a] using charListLe_trans as bs cs hrec1 hrec2

theorem charListLe_total : ∀ (a b : List Char),
    (charListLe a b || charListLe b a) = true
  | [], _ => by simp [charListLe]
  | _ :: _, [] => by simp [charListLe]
  | a :: as, b :: bs => by
    by_cases hab : a < b
    · simp [charListLe, hab]
    · by_cases heq : a = b
      · subst heq
        simpa [charListLe, hab] using charListLe_total as bs
      · have hba : b < a := by
          rcases lt_trichotomy a b with h | h | h
          · exact absurd h hab
          · exact absurd h heq
          · exact h
        simp [charListLe, hab, heq, hba]

theorem strLe_trans (a b c : String) (h1 : strLe a b = true) (h2 : strLe b c = true) :
    strLe a c = true :=
  charListLe_trans a.data b.data c.data h1 h2

theorem strLe_total (a b : String) : (strLe a b || strLe b a) = true :=
  charListLe_total a.data b.data

theorem proto_le_trans (a b c : ModelPrototype) (hab : proto_le a b = true)
    (hbc : proto_le b c = true) : proto_le a c = true := by
  unfold proto_le at hab hbc ⊢
  cases ha : a.schema.is_reference <;> cases hb : b.schema.is_reference <;>
    cases hc : c.schema.is_reference <;> rw [ha, hb] at hab <;> rw [hb, hc] at hbc <;>
    first
      | rfl
      | exact Bool.noConfusion hab
      | exact Bool.noConfusion hbc
      | exact strLe_trans a.name b.name c.name hab hbc

theorem proto_le_total (a b : ModelPrototype) :
    (proto_le a b || proto_le b a) = true := by
  unfold proto_le
  cases ha : a.schema.is_reference <;> cases hb : b.schema.is_reference <;>
    first
      | rfl
      | exact strLe_total a.name b.name

/-- C7: the sorted prototype list of one Driver run is a permutation of the
Prototyper output in which every Object-kind prototype precedes every
Reference-kind prototype and two prototypes of the same kind appear in
ascending name order; consequently, on the scenario B document the `Pets`
alias to `Vec<Pet>` is emitted after the `Pet` record. -/
theorem c7_prototype_order (sw : Swagger) (fuel : Nat) :
    (CodegenBackend.prototypes sw fuel).Perm (Prototyper.generate_prototypes sw fuel)
    ∧ List.Pairwise (fun a b =>
        (a.schema.is_reference = true → b.schema.is_reference = true)
        ∧ (a.schema.is_reference = b.schema.is_reference → strLe a.name b.name = true))
      (CodegenBackend.prototypes sw fuel)
    ∧ (RustCodegen.generate_models petStoreSwagger 8).output
        = [Decl.structDecl "Pet", Decl.aliasDecl "Pets" "Vec<Pet>"] := by
  refine ⟨List.perm_insertionSort _ _, ?_, by decide⟩
  · haveI : IsTrans ModelPrototype (fun a b => proto_le a b = true) :=
      ⟨fun a b c => proto_le_trans a b c⟩
    haveI : IsTotal ModelPrototype (fun a b => proto_le a b = true) :=
      ⟨fun a b => by simpa using proto_le_total a b⟩
    have hs := List.sorted_insertionSort (fun a b => proto_le a b = true)
      (Prototyper.generate_prototypes sw fuel)
    refine hs.imp ?_
    intro a b hab
    unfold proto_le at hab
    cases ha : a.schema.is_reference <;> cases hb : b.schema.is_reference <;>
      rw [ha, hb] at hab
    · exact ⟨fun h => Bool.noConfusion h, fun _ => hab⟩
    · exact ⟨fun h => Bool.noConfusion h, fun h => Bool.noConfusion h⟩
    · exact Bool.noConfusion hab
    · exact ⟨fun _ => rfl, fun _ => hab⟩

theorem option_free_no_nested (t : RustType) (h : t.option_free = true) :
    t.no_nested_option = true := by
  induction t with
  | vec t ih => simpa [RustType.option_free, RustType.no_nested_option] using ih h
  | object t ih => simpa [RustType.option_free, RustType.no_nested_option] using ih h
  | option t ih => simp [RustType.option_free] at h
  | _ => rfl

theorem option_free_no_nested_option (t : RustType) (h : t.option_free = true) :
    (RustType.option t).no_nested_option = true := by
  cases t <;> simp [RustType.option_free, RustType.no_nested_option] at h ⊢ <;>
    exact option_free_no_nested _ h

theorem shape_of_wrap (r : Bool) (ty t : RustType) (hfree : ty.option_free = true)
    (ht : (if r then ty else RustType.option ty) = t) :
    (r = true → t.option_free = true)
    ∧ (r = false → ∃ u, t = RustType.option u ∧ u.option_free = true) := by
  cases r
  · exact ⟨fun hr => Bool.noConfusion hr, fun _ => ⟨ty, ht.symm, hfree⟩⟩
  · exact ⟨fun _ => ht ▸ hfree, fun hr => Bool.noConfusion hr⟩

theorem from_integer_format_option_free (f : String) (t : RustType)
    (h : RustType.from_integer_format f = some t) : t.option_free = true := by
  unfold RustType.from_integer_format at h
  split at h <;> first
    | (cases h.symm; rfl)
    | exact absurd h (by simp)

theorem map_type_shape (fuel : Nat) (sw : Swagger) (req : MapRequest)
    (is_required : Bool) (parent_name : Option String) (t : RustType)
    (h : sw.map_type fuel req is_required parent_name = some t) :
    (is_required = true → t.option_free = true)
    ∧ (is_required = false → ∃ u, t = RustType.option u ∧ u.option_free = true) := by
  induction fuel generalizing req is_required parent_name t with
  | zero => exact absurd h (by simp [Swagger.map_type])
  | succ fuel ih =>
    match req with
    | .item item =>
      match item with
      | .reference ref =>
        exact ih (.ref ref) is_required parent_name t h
      | .object schema =>
        exact ih (.schema schema none) is_required parent_name t h
    | .ref ref =>
      simp only [Swagger.map_type] at h
      split at h
      · exact absurd h (by simp)
      · exact ih _ is_required parent_name t h
    | .schema schema ref_ =>
      simp only [Swagger.map_type] at h
      split at h
      · exact absurd h (by simp)
      · rename_i ty hty
        revert h
        split
        · intro h
          exact absurd h (by simp)
        · rename_i base ty2 hbase
          intro h
          refine shape_of_wrap is_required ty2 t ?_ (Option.some.inj h)
          clear h
          revert hbase
          split
          · intro hbase
            cases hbase
            cases hfmt : schema.format.bind RustType.from_integer_format with
            | none => rfl
            | some x =>
              obtain ⟨f, _, hx⟩ := Option.bind_eq_some.mp hfmt
              simpa using from_integer_format_option_free f x hx
          · intro hbase
            cases hbase
            split <;> rfl
          · intro hbase
            cases hbase
            rfl
          · intro hbase
            split at hbase
            · cases hbase
              rfl
            · split at hbase
              · split at hbase
                · rename_i t2 heq
                  cases hbase
                  simpa [RustType.option_free] using (ih _ true parent_name t2 heq).1 rfl
                · exact absurd hbase (by simp)
              · exact absurd hbase (by simp)
          · intro hbase
            split at hbase
            · cases hbase
              rfl
            · split at hbase
              · split at hbase
                · rename_i t2 heq
                  cases hbase
                  simpa [RustType.option_free] using (ih _ true parent_name t2 heq).1 rfl
                · exact absurd hbase (by simp)
              · split at hbase
                · split at hbase
                  · rename_i t2 heq
                    cases hbase
                    simpa [RustType.option_free] using (ih _ true parent_name t2 heq).1 rfl
                  · exact absurd hbase (by simp)
                · split at hbase
                  · cases hbase
                    split
                    · rfl
                    · split <;> rfl
                  · cases hbase
                    rfl
          · intro hbase
            split at hbase
            · cases hbase
              rfl
            · cases hbase
              rfl
            · exact absurd hbase (by simp)
          · intro hbase
            exact absurd hbase (by simp)

/-- C6: a TargetType returned by the Type Resolver never contains a Nullable
directly wrapping another Nullable: every recursive call inside the resolver
(array items, map values) passes required, so the type under the at most one
outer `Option` is entirely `Option`-free - the wrapper is applied exactly
once, at the outermost call, exactly when the node is not required. -/
theorem c6_nullable_applied_once (sw : Swagger) (fuel : Nat) (schema : Schema)
    (ref_ : Option String) (is_required : Bool) (parent_name : Option String)
    (t : RustType)
    (h : sw.map_schema_type fuel schema ref_ is_required parent_name = some t) :
    t.no_nested_option = true
    ∧ (is_required = true → t.option_free = true)
    ∧ (is_required = false → ∃ u, t = RustType.option u ∧ u.option_free = true) := by
  have hs := map_type_shape fuel sw (.schema schema ref_) is_required parent_name t h
  refine ⟨?_, hs.1, hs.2⟩
  cases is_required
  · obtain ⟨u, hu, hfree⟩ := hs.2 rfl
    rw [hu]
    exact option_free_no_nested_option u hfree
  · exact option_free_no_nested t (hs.1 rfl)

theorem c6_witness :
    (RustType.option RustType.isize).no_nested_option = true
    ∧ (false = true → (RustType.option RustType.isize).option_free = true)
    ∧ (false = false → ∃ u, RustType.option RustType.isize = RustType.option u
        ∧ u.option_free = true) :=
  c6_nullable_applied_once emptySwagger 1 intSchema none false none
    (RustType.option RustType.isize) rfl
theorem first_some_cons {α : Type} (o : Option α) (l : List (Option α)) :
    first_some (o :: l) = o.or (first_some l) := by
  cases o <;> rfl

theorem first_some_append {α : Type} (l1 l2 : List (Option α)) :
    first_some (l1 ++ l2) = (first_some l1).or (first_some l2) := by
  induction l1 with
  | nil => simp [first_some]
  | cons o l ih =>
    rw [List.cons_append, first_some_cons, first_some_cons, ih, Option.or_assoc]

theorem merge_step_format (acc c : Schema) :
    (merge_step acc c).format = acc.format.or c.format := by
  rcases acc with ⟨⟨r, fm, ti, de, rq, tyf, it, pr, ap, en, ao, xn, xp⟩⟩
  cases fm <;> rfl

theorem merge_step_title (acc c : Schema) :
    (merge_step acc c).title = acc.title.or c.title := by
  rcases acc with ⟨⟨r, fm, ti, de, rq, tyf, it, pr, ap, en, ao, xn, xp⟩⟩
  cases ti <;> rfl

theorem merge_step_description (acc c : Schema) :
    (merge_step acc c).description = acc.description.or c.description := by
  rcases acc with ⟨⟨r, fm, ti, de, rq, tyf, it, pr, ap, en, ao, xn, xp⟩⟩
  cases de <;> rfl

theorem merge_step_type (acc c : Schema) :
    (merge_step acc c).type_ = acc.type_.or c.type_ := by
  rcases acc with ⟨⟨r, fm, ti, de, rq, tyf, it, pr, ap, en, ao, xn, xp⟩⟩
  cases tyf <;> rfl

theorem merge_step_required (acc c : Schema) :
    (merge_step acc c).required
      = if acc.required.isEmpty then c.required else acc.required := by
  rcases acc with ⟨⟨r, fm, ti, de, rq, tyf, it, pr, ap, en, ao, xn, xp⟩⟩
  rcases c with ⟨⟨r2, fm2, ti2, de2, rq2, tyf2, it2, pr2, ap2, en2, ao2, xn2, xp2⟩⟩
  cases rq <;> cases rq2 <;> rfl

theorem merge_step_enum (acc c : Schema) :
    (merge_step acc c).enum_
      = if acc.enum_.isEmpty then c.enum_ else acc.enum_ := by
  rcases acc with ⟨⟨r, fm, ti, de, rq, tyf, it, pr, ap, en, ao, xn, xp⟩⟩
  rcases c with ⟨⟨r2, fm2, ti2, de2, rq2, tyf2, it2, pr2, ap2, en2, ao2, xn2, xp2⟩⟩
  cases en <;> cases en2 <;> rfl

theorem merge_step_properties (acc c : Schema) (ps : Items)
    (hacc : acc.properties = some ps) :
    (merge_step acc c).properties
      = some (match c.properties with
          | some new_props => new_props ++ ps
          | none => ps) := by
  rcases acc with ⟨⟨r, fm, ti, de, rq, tyf, it, pr, ap, en, ao, xn, xp⟩⟩
  rcases c with ⟨⟨r2, fm2, ti2, de2, rq2, tyf2, it2, pr2, ap2, en2, ao2, xn2, xp2⟩⟩
  simp only [Schema.properties, Schema.unwrap] at hacc
  subst hacc
  cases pr2 <;> rfl

theorem foldl_merge_scalar (f : Schema → Option String)
    (hf : ∀ acc c, f (merge_step acc c) = (f acc).or (f c)) (cs : List Schema) :
    ∀ acc, f (cs.foldl merge_step acc) = (f acc).or (first_some (cs.map f)) := by
  induction cs with
  | nil => intro acc; simp [first_some]
  | cons c cs ih =>
    intro acc
    rw [List.foldl_cons, ih, hf, Option.or_assoc, List.map_cons, first_some_cons]

theorem foldl_merge_wholesale {α : Type} (f : Schema → List α)
    (hf : ∀ acc c, f (merge_step acc c) = if (f acc).isEmpty then f c else f acc)
    (cs : List Schema) :
    ∀ acc, f (cs.foldl merge_step acc)
      = if (f acc).isEmpty then first_non_empty (cs.map f) else f acc := by
  induction cs with
  | nil =>
    intro acc
    cases h : (f acc).isEmpty
    · simp [h]
    · simp [h, first_non_empty, List.isEmpty_iff.mp h]
  | cons c cs ih =>
    intro acc
    rw [List.foldl_cons, ih, hf, List.map_cons]
    cases hA : (f acc).isEmpty
    · simp [hA]
    · simp only [if_pos rfl, hA, if_true]
      rw [show first_non_empty (f c :: cs.map f)
          = if (f c).isEmpty then first_non_empty (cs.map f) else f c from rfl]

theorem foldl_merge_prop_lookup (k : String) (cs : List Schema) :
    ∀ (acc : Schema) (ps : Items), acc.properties = some ps →
    prop_lookup (cs.foldl merge_step acc) k
      = (first_some ((cs.reverse).map (fun c => prop_lookup c k))).or
          (List.lookup k ps) := by
  induction cs with
  | nil =>
    intro acc ps hacc
    simp [prop_lookup, hacc, first_some]
  | cons c cs ih =>
    intro acc ps hacc
    rw [List.foldl_cons, ih (merge_step acc c) _ (merge_step_properties acc c ps hacc)]
    have hl : List.lookup k (match c.properties with
          | some new_props => new_props ++ ps
          | none => ps)
        = (prop_lookup c k).or (List.lookup k ps) := by
      cases hc : c.properties with
      | none => simp [prop_lookup, hc]
      | some new_props => simp [prop_lookup, hc, List.lookup_append]
    rw [hl, ← Option.or_assoc, List.reverse_cons, List.map_append, first_some_append]
    have h1 : first_some ([c].map (fun c => prop_lookup c k)) = prop_lookup c k := by
      rw [List.map_cons, List.map_nil, first_some_cons]
      exact Option.or_none
    rw [h1]

/-- C4: with a non-empty `allOf` list, the merged schema looks each
bare-reference component up first, then: its property map is the union of the
component maps with later components overriding same-named keys; the scalar
fields format, title, description and type tag hold the first present value
in list order, the accumulator starting from the outer title and description;
and the required-name and enum-literal lists are copied wholesale from the
first component supplying a non-empty one, never appended to afterward. -/
theorem c4_merge_all_of_characterization (sw : Swagger) (fuel : Nat) (schema : Schema)
    (h : schema.all_of ≠ []) :
    (∀ k, prop_lookup (sw.merge_all_of_schema fuel schema) k
        = first_some
            (((schema.all_of.map (sw.resolve_all_of_component fuel)).reverse).map
              (fun c => prop_lookup c k)))
    ∧ (sw.merge_all_of_schema fuel schema).format
        = first_some
            ((schema.all_of.map (sw.resolve_all_of_component fuel)).map Schema.format)
    ∧ (sw.merge_all_of_schema fuel schema).title
        = first_some (schema.title ::
            (schema.all_of.map (sw.resolve_all_of_component fuel)).map Schema.title)
    ∧ (sw.merge_all_of_schema fuel schema).description
        = first_some (schema.description ::
            (schema.all_of.map (sw.resolve_all_of_component fuel)).map Schema.description)
    ∧ (sw.merge_all_of_schema fuel schema).type_
        = first_some
            ((schema.all_of.map (sw.resolve_all_of_component fuel)).map Schema.type_)
    ∧ (sw.merge_all_of_schema fuel schema).required
        = first_non_empty
            ((schema.all_of.map (sw.resolve_all_of_component fuel)).map Schema.required)
    ∧ (sw.merge_all_of_schema fuel schema).enum_
        = first_non_empty
            ((schema.all_of.map (sw.resolve_all_of_component fuel)).map Schema.enum_) := by
  have hmerge : sw.merge_all_of_schema fuel schema
      = (schema.all_of.map (sw.resolve_all_of_component fuel)).foldl merge_step
          (base_all_of_schema schema) := by
    rw [Swagger.merge_all_of_schema, List.foldl_map]
    rw [if_pos]
    simp [List.isEmpty_iff, h]
  rw [hmerge]
  refine ⟨fun k => ?_, ?_, ?_, ?_, ?_, ?_, ?_⟩
  · rw [foldl_merge_prop_lookup k _ (base_all_of_schema schema) [] rfl]
    simp
  · rw [foldl_merge_scalar Schema.format merge_step_format]
    rfl
  · rw [foldl_merge_scalar Schema.title merge_step_title]
    rw [first_some_cons]
    rfl
  · rw [foldl_merge_scalar Schema.description merge_step_description]
    rw [first_some_cons]
    rfl
  · rw [foldl_merge_scalar Schema.type_ merge_step_type]
    rfl
  · rw [foldl_merge_wholesale Schema.required merge_step_required]
    rfl
  · rw [foldl_merge_wholesale Schema.enum_ merge_step_enum]
    rfl

theorem c4_witness :
    allOfSchema.all_of ≠ []
    ∧ (Swagger.merge_all_of_schema emptySwagger 1 allOfSchema).title = some "T1"
    ∧ (Swagger.merge_all_of_schema emptySwagger 1 allOfSchema).description = some "outer"
    ∧ (Swagger.merge_all_of_schema emptySwagger 1 allOfSchema).required = ["r1"]
    ∧ (Swagger.merge_all_of_schema emptySwagger 1 allOfSchema).enum_ = [YamlValue.str "e1"]
    ∧ prop_lookup (Swagger.merge_all_of_schema emptySwagger 1 allOfSchema) "x"
        = some (ItemF.object barSchema)
    ∧ prop_lookup (Swagger.merge_all_of_schema emptySwagger 1 allOfSchema) "y"
        = some (ItemF.object intSchema) := by
  have h := c4_merge_all_of_characterization emptySwagger 1 allOfSchema
    (List.cons_ne_nil componentA [componentB])
  refine ⟨List.cons_ne_nil componentA [componentB], ?_, ?_, ?_, ?_, ?_, ?_⟩
  · rw [h.2.2.1]
    rfl
  · rw [h.2.2.2.1]
    rfl
  · rw [h.2.2.2.2.2.1]
    rfl
  · rw [h.2.2.2.2.2.2]
    rfl
  · rw [h.1 "x"]
    rfl
  · rw [h.1 "y"]
    rfl
theorem inv_append (st : GenState) (d : Decl)
    (hinv : GenInv st)
    (hok : d.isAlias = true → st.generated_models.contains d.declName = false) :
    GenInv { generated_models := st.generated_models ++ [d.declName],
             output := st.output ++ [d] } := by
  obtain ⟨hreg, hpw⟩ := hinv
  constructor
  · simp [hreg]
  · rw [List.pairwise_append]
    refine ⟨hpw, by simp [AliasFresh], ?_⟩
    intro a ha b hb
    simp only [List.mem_singleton] at hb
    subst hb
    intro halias heqname
    have hmem : b.declName ∈ st.generated_models := by
      rw [hreg, ← heqname]
      exact List.mem_map_of_mem Decl.declName ha
    have hfalse := hok halias
    have htrue : st.generated_models.contains b.declName = true := by
      simpa using hmem
    rw [hfalse] at htrue
    exact Bool.noConfusion htrue

theorem inv_generate_reference_model (sw : Swagger) (fuel : Nat) (ref : String)
    (model : ModelPrototype) (st : GenState) (hinv : GenInv st) :
    GenInv (RustCodegen.generate_reference_model sw fuel ref model st) := by
  simp only [RustCodegen.generate_reference_model]
  repeat' split
  all_goals first
    | exact hinv
    | (rename_i hcon
       refine inv_append st (Decl.aliasDecl _ _) hinv fun _ => ?_
       simp only [Bool.not_eq_true] at hcon
       exact hcon)

theorem inv_generate_props_schema (name : String) (st : GenState) (hinv : GenInv st) :
    GenInv (RustCodegen.generate_props_schema name st) :=
  inv_append st (Decl.structDecl (format_type_name name)) hinv
    (fun h => Bool.noConfusion h)

theorem inv_generate_array_schema (sw : Swagger) (fuel : Nat) (name : String)
    (schema : Schema) (st : GenState) (hinv : GenInv st) :
    GenInv (RustCodegen.generate_array_schema sw fuel name schema st) := by
  simp only [RustCodegen.generate_array_schema]
  repeat' split
  all_goals first
    | exact hinv
    | (rename_i hcon
       refine inv_append st (Decl.aliasDecl _ _) hinv fun _ => ?_
       simp only [Bool.not_eq_true] at hcon
       exact hcon)

theorem inv_generate_enum_schema (name : String) (st : GenState) (hinv : GenInv st) :
    GenInv (RustCodegen.generate_enum_schema name st) :=
  inv_append st (Decl.enumDecl (format_type_name name)) hinv
    (fun h => Bool.noConfusion h)

theorem inv_generate_schema (sw : Swagger) (fuel : Nat) (name : String)
    (parent_name : Option String) (schema : Schema) (st : GenState) (hinv : GenInv st) :
    GenInv (RustCodegen.generate_schema sw fuel name parent_name schema st) := by
  simp only [RustCodegen.generate_schema]
  repeat' split
  all_goals first
    | exact hinv
    | exact inv_generate_props_schema _ st hinv
    | exact inv_generate_array_schema sw fuel _ schema st hinv
    | exact inv_generate_enum_schema _ st hinv
    | (rename_i hcon
       refine inv_append st (Decl.aliasDecl _ _) hinv fun _ => ?_
       simp only [Bool.not_eq_true] at hcon
       exact hcon)

theorem inv_generate_model (sw : Swagger) (fuel : Nat) (model : ModelPrototype)
    (st : GenState) (hinv : GenInv st) :
    GenInv (RustCodegen.generate_model sw fuel model st) := by
  simp only [RustCodegen.generate_model]
  split
  · exact inv_generate_reference_model sw fuel _ model st hinv
  · exact inv_generate_schema sw fuel model.name model.parent_name _ st hinv

theorem inv_generate_models_from (sw : Swagger) (fuel : Nat)
    (prototypes : List ModelPrototype) :
    ∀ st, GenInv st → GenInv (RustCodegen.generate_models_from sw fuel prototypes st) := by
  induction prototypes with
  | nil => exact fun st h => h
  | cons p ps ih =>
    intro st h
    exact ih _ (inv_generate_model sw fuel p st h)

/-- C2 (amended): before a type alias is written - a reference model, an
array alias or a basic-type alias - the Rust backend checks the
GeneratedNameRegistry and skips the alias when the formatted name was already
emitted, so in any emission run every emitted alias has a name distinct from
every earlier emitted declaration; record and enumeration declarations,
however, are written without that check (the counterexample shows two
surviving records with the same formatted name). -/
theorem c2_alias_never_collides (sw : Swagger) (fuel : Nat)
    (prototypes : List ModelPrototype) :
    List.Pairwise AliasFresh
      (RustCodegen.generate_models_from sw fuel prototypes
        { generated_models := [], output := [] }).output :=
  (inv_generate_models_from sw fuel prototypes _ ⟨rfl, List.Pairwise.nil⟩).2

/-- C2 counterexample to the claim as stated: the document with definitions
named `Foo` and `foo` both formats to the type name `Foo`; the emission pass
writes both records - the record path never consults the registry - so two
surviving declarations share one formatted type name. -/
theorem c2_counterexample :
    ((RustCodegen.generate_models collidingSwagger 8).output.map Decl.declName)
      = ["Foo", "Foo"]
    ∧ ¬ ((RustCodegen.generate_models collidingSwagger 8).output.map
          Decl.declName).Nodup := by
  have h1 : ((RustCodegen.generate_models collidingSwagger 8).output.map Decl.declName)
      = ["Foo", "Foo"] := by decide
  refine ⟨h1, ?_⟩
  rw [h1]
  decide
theorem get_ref_out_step (sw : Swagger) (fuel : Nat) (ref : String)
    (h : sw.get_ref_schemaF (fuel + 1) ref = ResolveResult.out) :
    ∃ ref2, sw.alias_next ref = some ref2
      ∧ sw.get_ref_schemaF fuel ref2 = ResolveResult.out := by
  rw [Swagger.get_ref_schemaF] at h
  split at h
  · rename_i h1
    split at h <;> exact absurd h (by simp)
  · rename_i h1
    split at h
    · rename_i h2
      split at h
      · rename_i responses hresp
        split at h
        · exact absurd h (by simp)
        · exact absurd h (by simp)
        · rename_i ref2 hlook
          refine ⟨ref2, ?_, h⟩
          rw [Swagger.alias_next, if_neg h1, if_pos h2, hresp]
          simp [hlook]
      · exact absurd h (by simp)
    · exact absurd h (by simp)

theorem alias_orbit_shift (sw : Swagger) (ref ref2 : String)
    (hnext : sw.alias_next ref = some ref2) :
    ∀ n, sw.alias_orbit ref (n + 1) = sw.alias_orbit ref2 n := by
  intro n
  induction n with
  | zero => simp [Swagger.alias_orbit, hnext]
  | succ n ih =>
    rw [show sw.alias_orbit ref (n + 1 + 1)
        = (sw.alias_orbit ref (n + 1)).bind sw.alias_next from rfl]
    rw [ih]
    rfl

theorem out_orbit_some (sw : Swagger) : ∀ (fuel : Nat) (ref : String),
    sw.get_ref_schemaF fuel ref = ResolveResult.out →
    ∀ m, m ≤ fuel → ∃ x, sw.alias_orbit ref m = some x := by
  intro fuel
  induction fuel with
  | zero =>
    intro ref _ m hm
    rw [Nat.le_zero.mp hm]
    exact ⟨ref, rfl⟩
  | succ fuel ih =>
    intro ref h m hm
    obtain ⟨ref2, hnext, hout⟩ := get_ref_out_step sw fuel ref h
    cases m with
    | zero => exact ⟨ref, rfl⟩
    | succ m =>
      obtain ⟨x, hx⟩ := ih ref2 hout m (Nat.succ_le_succ_iff.mp hm)
      refine ⟨x, ?_⟩
      rw [alias_orbit_shift sw ref ref2 hnext m]
      exact hx

theorem alias_next_mem_targets (sw : Swagger) (ref ref2 : String)
    (h : sw.alias_next ref = some ref2) : ref2 ∈ sw.response_alias_targets := by
  rw [Swagger.alias_next] at h
  split at h
  · exact absurd h (by simp)
  · split at h
    · split at h
      · rename_i responses hresp
        split at h
        · rename_i r hlook
          cases h
          obtain ⟨l1, l2, hsplit, _⟩ := List.lookup_eq_some_iff.mp hlook
          rw [Swagger.response_alias_targets, hresp]
          rw [List.mem_filterMap]
          refine ⟨(ref, Response.reference ref2), ?_, rfl⟩
          rw [hsplit]
          simp
        · exact absurd h (by simp)
      · exact absurd h (by simp)
    · exact absurd h (by simp)

theorem alias_orbit_succ_inv (sw : Swagger) (ref : String) (n : Nat) (x : String)
    (h : sw.alias_orbit ref (n + 1) = some x) :
    ∃ y, sw.alias_orbit ref n = some y ∧ sw.alias_next y = some x :=
  Option.bind_eq_some.mp h

theorem acyclic_terminates (sw : Swagger) (ref : String)
    (hacyc : AcyclicAliases sw ref) :
    ∃ fuel, sw.get_ref_schemaF fuel ref ≠ ResolveResult.out := by
  by_contra hno
  push_neg at hno
  have hout := hno (sw.response_alias_targets.length + 2)
  have horbit := out_orbit_some sw (sw.response_alias_targets.length + 2) ref hout
  have hval : ∀ i, i ≤ sw.response_alias_targets.length + 1 →
      ∃ x, sw.alias_orbit ref (i + 1) = some x ∧ x ∈ sw.response_alias_targets := by
    intro i hi
    obtain ⟨x, hx⟩ := horbit (i + 1) (by omega)
    obtain ⟨y, _, hnext⟩ := alias_orbit_succ_inv sw ref i x hx
    exact ⟨x, hx, alias_next_mem_targets sw y x hnext⟩
  have hnodup : ((List.range (sw.response_alias_targets.length + 1)).map
      (fun i => (sw.alias_orbit ref (i + 1)).getD "")).Nodup := by
    refine List.Nodup.map_on ?_ (List.nodup_range _)
    intro i hi j hj hij
    rw [List.mem_range] at hi hj
    obtain ⟨x, hx, _⟩ := hval i (by omega)
    obtain ⟨y, hy, _⟩ := hval j (by omega)
    rw [hx, hy] at hij
    simp only [Option.getD_some] at hij
    subst hij
    rcases Nat.lt_trichotomy i j with hlt | heq | hlt
    · exact absurd (hacyc (i + 1) (j + 1) x (by omega) (by omega) hx hy) (by simp)
    · exact heq
    · exact absurd (hacyc (j + 1) (i + 1) x (by omega) (by omega) hy hx) (by simp)
  have hmem : ∀ v ∈ (List.range (sw.response_alias_targets.length + 1)).map
      (fun i => (sw.alias_orbit ref (i + 1)).getD ""),
      v ∈ sw.response_alias_targets := by
    intro v hv
    rw [List.mem_map] at hv
    obtain ⟨i, hi, hvi⟩ := hv
    rw [List.mem_range] at hi
    obtain ⟨x, hx, hxmem⟩ := hval i (by omega)
    rw [hx] at hvi
    simp only [Option.getD_some] at hvi
    rw [← hvi]
    exact hxmem
  have h1 : ((List.range (sw.response_alias_targets.length + 1)).map
      (fun i => (sw.alias_orbit ref (i + 1)).getD "")).toFinset.card
      = sw.response_alias_targets.length + 1 := by
    rw [List.toFinset_card_of_nodup hnodup]
    simp
  have h2 : ((List.range (sw.response_alias_targets.length + 1)).map
      (fun i => (sw.alias_orbit ref (i + 1)).getD "")).toFinset
      ⊆ sw.response_alias_targets.toFinset := by
    intro v hv
    rw [List.mem_toFinset] at hv ⊢
    exact hmem v hv
  have h3 := Finset.card_le_card h2
  have h4 := List.toFinset_card_le sw.response_alias_targets
  omega

theorem cyclic_chain_out : ∀ fuel,
    Swagger.get_ref_schemaF cyclicSwagger fuel "#/responses/Foo" = ResolveResult.out
    ∧ Swagger.get_ref_schemaF cyclicSwagger fuel "#/responses/Bar"
      = ResolveResult.out := by
  intro fuel
  induction fuel with
  | zero => exact ⟨rfl, rfl⟩
  | succ fuel ih =>
    constructor
    · rw [show Swagger.get_ref_schemaF cyclicSwagger (fuel + 1) "#/responses/Foo"
          = Swagger.get_ref_schemaF cyclicSwagger fuel "#/responses/Bar" from rfl]
      exact ih.2
    · rw [show Swagger.get_ref_schemaF cyclicSwagger (fuel + 1) "#/responses/Bar"
          = Swagger.get_ref_schemaF cyclicSwagger fuel "#/responses/Foo" from rfl]
      exact ih.1

/-- C9: reference resolution has no cycle guard, only the recursion itself:
whenever the alias chain from a reference is acyclic, `get_ref_schema`
terminates (some recursion depth suffices), while on the concrete circular
response-alias chain Foo to Bar to Foo the recursion never reaches an answer
at any depth - the fueled embedding runs out of fuel for every fuel value,
which is how the embedding renders non-terminating recursion. -/
theorem c9_no_cycle_detection :
    (∀ (sw : Swagger) (ref : String), AcyclicAliases sw ref →
      ∃ fuel, sw.get_ref_schemaF fuel ref ≠ ResolveResult.out)
    ∧ (∀ fuel, Swagger.get_ref_schemaF cyclicSwagger fuel "#/responses/Foo"
        = ResolveResult.out) :=
  ⟨acyclic_terminates, fun fuel => (cyclic_chain_out fuel).1⟩
end SwaggerRustgen
